import Mathlib

/-!
Verification of the dependency-resolution-and-lifecycle-tracking core of
`fastapi-injectable`.

Two components are embedded:

* the Lifecycle Manager (`AsyncExitStackManager`): its source module is not in
  the provided sources (only its tests in `test/test_manager.py` and its caller
  `main.py` are), so it is modelled from the spec's contract (section 4.2);
* the Resolver (`resolve_dependencies` in `src/fastapi_injectable/main.py`),
  embedded from the source, with the external FastAPI solver
  (`solve_dependencies`) treated as an opaque parameter, per the spec's
  external-interface section.

Callables are identified by `Nat` identity tokens; cleanup actions and cache
keys/values are `Nat` as well.  An `AsyncExitStack` is modelled by a fresh
identity plus the ordered list of registered cleanup actions; closing a stack
appends the reverse of that list to a global execution log, matching
`AsyncExitStack.aclose` running callbacks in reverse registration order.
-/

/-- Modelled from the spec: an `AsyncExitStack` owned by the manager for one
callable.  `id` is the stack's object identity (allocated from a fresh-id
counter, so distinct creations are distinct instances); `actions` is the list
of registered cleanup actions in registration order. -/
structure Stack where
  id : Nat
  actions : List Nat
  deriving Repr, DecidableEq

/-- Modelled from the spec: the state of the `AsyncExitStackManager`, whose
source module is absent from the provided sources.  `_stacks` is the
callable-identity-to-stack mapping (named after the Python attribute),
`nextId` the fresh-identity counter used to create new stack instances, and
`execLog` the global record of cleanup actions that have been executed, in
execution order. -/
structure ManagerState where
  _stacks : List (Nat × Stack)
  nextId : Nat
  execLog : List Nat
  deriving Repr, DecidableEq

/-- First-match lookup in the callable-to-stack association list. -/
def lookupStack (f : Nat) : List (Nat × Stack) → Option Stack
  | [] => none
  | (g, st) :: rest => if g = f then some st else lookupStack f rest

/-- Number of entries tracked for callable `f`. -/
def countKey (f : Nat) : List (Nat × Stack) → Nat
  | [] => 0
  | (g, _) :: rest => (if g = f then 1 else 0) + countKey f rest

/-- Removal of the entry for callable `f` (dictionary deletion). -/
def removeStack (f : Nat) (l : List (Nat × Stack)) : List (Nat × Stack) :=
  l.filter (fun p => p.1 ≠ f)

/-- Modelled from the spec: `get_stack(callable)` returns the callable's
stack, creating and storing a new empty stack on first access.  The spec
requires the check-and-insert to be atomic (guarded by the manager's lock), so
the whole operation is one atomic step on the state. -/
def get_stack (f : Nat) (s : ManagerState) : Stack × ManagerState :=
  match lookupStack f s._stacks with
  | some st => (st, s)
  | none =>
      let st : Stack := ⟨s.nextId, []⟩
      (st, { s with _stacks := (f, st) :: s._stacks, nextId := s.nextId + 1 })

/-- Registration of a cleanup action on the tracked stack of `f` (what a
context-manager dependency does during resolution); a no-op when `f` is
untracked. -/
def registerAction (f a : Nat) (s : ManagerState) : ManagerState :=
  { s with
    _stacks := s._stacks.map (fun p =>
      if p.1 = f then (p.1, ⟨p.2.id, p.2.actions ++ [a]⟩) else p) }

/-- Closing a stack runs its registered cleanup actions in reverse
registration order (the `AsyncExitStack.aclose` contract). -/
def closeActions (st : Stack) : List Nat :=
  st.actions.reverse

/-- Modelled from the spec: `cleanup_stack(callable)` runs every registered
cleanup action of the callable's stack in reverse registration order and
removes the entry; a silent no-op when no entry exists. -/
def cleanup_stack (f : Nat) (s : ManagerState) : ManagerState :=
  match lookupStack f s._stacks with
  | some st =>
      { s with
        _stacks := removeStack f s._stacks,
        execLog := s.execLog ++ closeActions st }
  | none => s

/-- Modelled from the spec: `cleanup_all_stacks()` closes and removes every
tracked entry; afterward the tracked set is empty. -/
def cleanup_all_stacks (s : ManagerState) : ManagerState :=
  { s with
    _stacks := [],
    execLog := s.execLog ++ (s._stacks.map (fun p => closeActions p.2)).flatten }

/-- Modelled from the spec: passive forgetting.  The tracked map holds its
keys weakly, so a garbage-collection step removes every entry whose callable
is no longer referenced (not in `live`), without running any cleanup action. -/
def gcCollect (live : List Nat) (s : ManagerState) : ManagerState :=
  { s with _stacks := s._stacks.filter (fun p => live.contains p.1) }

/-- Running `get_stack f` a number of times in sequence, collecting the
returned stacks.  Because each `get_stack` call is a single atomic step (the
spec's lock serializes the check-and-insert), any cooperative interleaving of
concurrent `get_stack f` calls executes as some such sequence. -/
def getStackN (f : Nat) : Nat → ManagerState → List Stack × ManagerState
  | 0, s => ([], s)
  | n + 1, s =>
      let r := get_stack f s
      let rest := getStackN f n r.2
      (r.1 :: rest.1, rest.2)

/-- Python dictionary single-key assignment `m[k] = v`: replaces the value at
an existing key in place, otherwise appends the new binding at the end. -/
def setKey : List (Nat × Nat) → Nat → Nat → List (Nat × Nat)
  | [], k, v => [(k, v)]
  | (k', v') :: rest, k, v =>
      if k' = k then (k, v) :: rest else (k', v') :: setKey rest k v

/-- Python `dict.update`: assigns every binding of `upd` into `m`, left to
right, overwriting the value at any key that is already present. -/
def dictUpdate (m upd : List (Nat × Nat)) : List (Nat × Nat) :=
  upd.foldl (fun acc p => setKey acc p.1 p.2) m

/-- First-match association-list lookup (Python `dict` access). -/
def lookupCache (k : Nat) : List (Nat × Nat) → Option Nat
  | [] => none
  | (k', v) :: rest => if k' = k then some v else lookupCache k rest

/-- Result of FastAPI's `solve_dependencies` (the opaque external solver):
resolved values keyed by parameter name, the list of per-dependency errors
(empty when resolution fully succeeded), and the solver's returned
dependency-cache contents. -/
structure SolvedDependency where
  values : List (String × Nat)
  errors : List Nat
  dependency_cache : List (Nat × Nat)
  deriving Repr, DecidableEq

/-- The opaque external solver, as `resolve_dependencies` invokes it: a
function of the target callable, the cache handed in (`none` when resolution
is uncached), and the exit stack obtained from the manager.  The synthetic
request passed by `resolve_dependencies` is a fixed constant (empty headers,
empty query string), so it is not a parameter. -/
def Solver : Type :=
  Nat → Option (List (Nat × Nat)) → Stack → SolvedDependency

/-- The mutable state `resolve_dependencies` touches: the manager's state, the
shared `dependency_cache` contents, and the count of warnings logged so far
(each `logger.warning` call increments it). -/
structure ResolveState where
  manager : ManagerState
  dependency_cache : List (Nat × Nat)
  warnings : Nat
  deriving Repr, DecidableEq

/-- Embedding of `resolve_dependencies` from `src/fastapi_injectable/main.py`:
obtains the callable's exit stack from the manager, hands the shared cache to
the solver only when `use_cache` is true, merges the solver's returned cache
into the shared cache via `dict.update` whenever a cache was obtained, then —
if the solver reported errors — raises `DependencyResolveError` carrying those
errors when `raise_exception` is true, or logs one warning otherwise, and
finally returns the resolved values.  The raised exception is modelled by
`Except.error` carrying the error list. -/
def resolve_dependencies (solver : Solver) (func : Nat)
    (use_cache : Bool) (raise_exception : Bool) (s : ResolveState) :
    Except (List Nat) (List (String × Nat)) × ResolveState :=
  let r := get_stack func s.manager
  let cache : Option (List (Nat × Nat)) :=
    if use_cache then some s.dependency_cache else none
  let resolved := solver func cache r.1
  let newCache : List (Nat × Nat) :=
    match cache with
    | some c => dictUpdate c resolved.dependency_cache
    | none => s.dependency_cache
  let s1 : ResolveState :=
    { manager := r.2, dependency_cache := newCache, warnings := s.warnings }
  if resolved.errors.isEmpty then
    (Except.ok resolved.values, s1)
  else if raise_exception then
    (Except.error resolved.errors, s1)
  else
    (Except.ok resolved.values, { s1 with warnings := s1.warnings + 1 })

/-- The solver invocation `resolve_dependencies` performs: the callable, the
cache argument selected by `use_cache`, and the stack the manager returned. -/
def solverOutput (solver : Solver) (func : Nat) (use_cache : Bool)
    (s : ResolveState) : SolvedDependency :=
  solver func (if use_cache then some s.dependency_cache else none)
    (get_stack func s.manager).1

/-- A concrete solver that fails with one per-dependency error. -/
def solverErr : Solver :=
  fun _ _ _ => ⟨[], [5], []⟩

/-- A concrete solver that succeeds and returns, in its cache, the binding
`0 ↦ 1` for a key that the shared cache already holds with value `0`. -/
def solverOverwrite : Solver :=
  fun _ _ _ => ⟨[], [], [(0, 1)]⟩

/-- A concrete solver that reports an error while also returning a fresh cache
binding `1 ↦ 2`. -/
def solverErrCache : Solver :=
  fun _ _ _ => ⟨[("x", 3)], [5], [(1, 2)]⟩

theorem lookupStack_none_countKey {f : Nat} :
    ∀ {l : List (Nat × Stack)}, lookupStack f l = none → countKey f l = 0 := by
  intro l h
  induction l with
  | nil => rfl
  | cons p rest ih =>
      obtain ⟨g, st⟩ := p
      by_cases hg : g = f
      · simp [lookupStack, hg] at h
      · simp [lookupStack, hg] at h
        simp [countKey, hg, ih h]

theorem lookupStack_removeStack_self (f : Nat) (l : List (Nat × Stack)) :
    lookupStack f (removeStack f l) = none := by
  induction l with
  | nil => rfl
  | cons p rest ih =>
      obtain ⟨g, st⟩ := p
      by_cases hg : g = f
      · simpa [removeStack, hg] using ih
      · simpa [removeStack, lookupStack, hg] using ih

theorem lookupStack_removeStack_ne {f g : Nat} (h : g ≠ f) (l : List (Nat × Stack)) :
    lookupStack g (removeStack f l) = lookupStack g l := by
  induction l with
  | nil => rfl
  | cons p rest ih =>
      obtain ⟨k, st⟩ := p
      by_cases hk : k = f
      · have hfg : ¬f = g := fun e => h e.symm
        simpa [removeStack, lookupStack, hk, hfg] using ih
      · by_cases hkg : k = g
        · subst hkg
          simp [removeStack, lookupStack, hk]
        · simpa [removeStack, lookupStack, hk, hkg] using ih

theorem get_stack_tracked {f : Nat} {t : ManagerState} {st : Stack}
    (h : lookupStack f t._stacks = some st) :
    get_stack f t = (st, t) := by
  simp [get_stack, h]

theorem getStackN_tracked {f : Nat} {s : ManagerState} {st : Stack}
    (h : lookupStack f s._stacks = some st) :
    ∀ n, getStackN f n s = (List.replicate n st, s) := by
  intro n
  induction n with
  | zero => rfl
  | succ n ih =>
      simp [getStackN, get_stack_tracked h, ih, List.replicate_succ]

theorem lookupStack_filter_not_live {f : Nat} {live : List Nat}
    (h : live.contains f = false) :
    ∀ l : List (Nat × Stack),
      lookupStack f (l.filter (fun p => live.contains p.1)) = none := by
  have hmem : f ∉ live := by simpa using h
  intro l
  induction l with
  | nil => rfl
  | cons p rest ih =>
      obtain ⟨g, st⟩ := p
      by_cases hg : g = f
      · subst hg
        simpa [List.filter_cons, hmem] using ih
      · by_cases hl : g ∈ live
        · simpa [List.filter_cons, hl, lookupStack, hg] using ih
        · simpa [List.filter_cons, hl] using ih

/-- C1: when N concurrent `get_stack(f)` calls run under cooperative
scheduling from a state where `f` is untracked, every interleaving executes as
some sequence of the N atomic (lock-guarded) check-and-insert steps; all N
calls return the single stack created on the first step (identity `s.nextId`),
afterward exactly one tracked entry for `f` exists, and the fresh-identity
counter advanced exactly once — concurrent first-accesses never create two
stacks. -/
theorem get_stack_concurrent (f : Nat) (s : ManagerState) (n : Nat)
    (huntracked : lookupStack f s._stacks = none) (hn : 0 < n) :
    (getStackN f n s).1 = List.replicate n ⟨s.nextId, []⟩ ∧
    countKey f (getStackN f n s).2._stacks = 1 ∧
    (getStackN f n s).2.nextId = s.nextId + 1 := by
  obtain ⟨m, rfl⟩ : ∃ m, n = m + 1 := ⟨n - 1, (Nat.succ_pred_eq_of_pos hn).symm⟩
  have hfirst : get_stack f s =
      (⟨s.nextId, []⟩,
       { s with _stacks := (f, ⟨s.nextId, []⟩) :: s._stacks, nextId := s.nextId + 1 }) := by
    simp [get_stack, huntracked]
  have hl1 : lookupStack f ((get_stack f s).2)._stacks = some ⟨s.nextId, []⟩ := by
    simp [hfirst, lookupStack]
  have hrest := getStackN_tracked hl1 m
  have hstep : getStackN f (m + 1) s =
      ((get_stack f s).1 :: (getStackN f m (get_stack f s).2).1,
       (getStackN f m (get_stack f s).2).2) := rfl
  rw [hstep, hrest]
  refine ⟨?_, ?_, ?_⟩
  · simp [hfirst, List.replicate_succ]
  · simp [hfirst, countKey, lookupStack_none_countKey huntracked]
  · simp [hfirst]

/-- Witness for `get_stack_concurrent`: three interleaved calls on a fresh
manager. -/
theorem get_stack_concurrent_witness :
    (getStackN 5 3 ⟨[], 0, []⟩).1 = List.replicate 3 ⟨0, []⟩ ∧
    countKey 5 (getStackN 5 3 ⟨[], 0, []⟩).2._stacks = 1 ∧
    (getStackN 5 3 ⟨[], 0, []⟩).2.nextId = 0 + 1 :=
  get_stack_concurrent 5 ⟨[], 0, []⟩ 3 rfl (by decide)

/-- C9: passive forgetting.  Once callable `f` is unreferenced (absent from
the `live` set), the garbage-collection step on the weak-key map removes `f`'s
entry from the tracked set without any explicit cleanup call, runs none of its
cleanup actions (the execution log is untouched), and leaves the rest of the
manager state intact — so from the moment the collector runs, `f` is no longer
tracked. -/
theorem gcCollect_forgets (f : Nat) (live : List Nat) (s : ManagerState)
    (h : live.contains f = false) :
    lookupStack f (gcCollect live s)._stacks = none ∧
    (gcCollect live s).execLog = s.execLog ∧
    (gcCollect live s).nextId = s.nextId :=
  ⟨lookupStack_filter_not_live h s._stacks, rfl, rfl⟩

/-- Witness for `gcCollect_forgets`: callable 1 becomes unreferenced while
callable 2 stays live. -/
theorem gcCollect_forgets_witness :
    lookupStack 1 (gcCollect [2] ⟨[(1, ⟨0, [7]⟩), (2, ⟨1, [8]⟩)], 2, []⟩)._stacks = none ∧
    (gcCollect [2] ⟨[(1, ⟨0, [7]⟩), (2, ⟨1, [8]⟩)], 2, []⟩).execLog = [] ∧
    (gcCollect [2] ⟨[(1, ⟨0, [7]⟩), (2, ⟨1, [8]⟩)], 2, []⟩).nextId = 2 :=
  gcCollect_forgets 1 [2] ⟨[(1, ⟨0, [7]⟩), (2, ⟨1, [8]⟩)], 2, []⟩ rfl

/-- C2: for every callable `f`, two sequential `get_stack(f)` calls with no
intervening cleanup return the same stack instance and the second call changes
nothing; when `f` is initially untracked, the first call creates a brand-new
empty stack (identity taken from the fresh counter) and stores it for `f`. -/
theorem get_stack_idempotent (f : Nat) (s : ManagerState) :
    (get_stack f (get_stack f s).2).1 = (get_stack f s).1 ∧
    (get_stack f (get_stack f s).2).2 = (get_stack f s).2 ∧
    (lookupStack f s._stacks = none →
      (get_stack f s).1 = ⟨s.nextId, []⟩ ∧
      lookupStack f (get_stack f s).2._stacks = some (get_stack f s).1) := by
  cases h : lookupStack f s._stacks with
  | some st =>
      have hg : get_stack f s = (st, s) := by simp [get_stack, h]
      refine ⟨?_, ?_, ?_⟩
      · simp [hg]
      · simp [hg]
      · intro hn
        simp [h] at hn
  | none =>
      have hg : get_stack f s =
          (⟨s.nextId, []⟩,
           { s with
             _stacks := (f, ⟨s.nextId, []⟩) :: s._stacks,
             nextId := s.nextId + 1 }) := by
        simp [get_stack, h]
      have hl : lookupStack f (get_stack f s).2._stacks = some (get_stack f s).1 := by
        simp [hg, lookupStack]
      have hsecond : get_stack f (get_stack f s).2 = ((get_stack f s).1, (get_stack f s).2) :=
        get_stack_tracked hl
      refine ⟨by simp [hsecond], by simp [hsecond], ?_⟩
      intro _
      exact ⟨by simp [hg], hl⟩

/-- Witness for `get_stack_idempotent` at a concrete untracked callable. -/
theorem get_stack_idempotent_witness :
    (get_stack 7 (get_stack 7 ⟨[], 0, []⟩).2).1 = (get_stack 7 ⟨[], 0, []⟩).1 ∧
    (get_stack 7 (get_stack 7 ⟨[], 0, []⟩).2).2 = (get_stack 7 ⟨[], 0, []⟩).2 ∧
    (get_stack 7 (⟨[], 0, []⟩ : ManagerState)).1 = ⟨0, []⟩ ∧
    lookupStack 7 (get_stack 7 (⟨[], 0, []⟩ : ManagerState)).2._stacks =
      some (get_stack 7 (⟨[], 0, []⟩ : ManagerState)).1 :=
  ⟨(get_stack_idempotent 7 ⟨[], 0, []⟩).1,
   (get_stack_idempotent 7 ⟨[], 0, []⟩).2.1,
   ((get_stack_idempotent 7 ⟨[], 0, []⟩).2.2 rfl).1,
   ((get_stack_idempotent 7 ⟨[], 0, []⟩).2.2 rfl).2⟩

/-- C5: `cleanup_stack(f)` on an untracked `f` is a silent no-op: the whole
manager state (tracked set and execution log alike) is unchanged and no
cleanup action runs. -/
theorem cleanup_stack_untracked (f : Nat) (s : ManagerState)
    (h : lookupStack f s._stacks = none) :
    cleanup_stack f s = s := by
  simp [cleanup_stack, h]

/-- Witness for `cleanup_stack_untracked` on a concrete untracked callable. -/
theorem cleanup_stack_untracked_witness :
    cleanup_stack 3 ⟨[(1, ⟨0, [5]⟩)], 2, []⟩ = ⟨[(1, ⟨0, [5]⟩)], 2, []⟩ :=
  cleanup_stack_untracked 3 ⟨[(1, ⟨0, [5]⟩)], 2, []⟩ (by decide)

/-- C4: `cleanup_stack(f)` on a tracked `f` runs exactly one full close of
`f`'s stack — its registered cleanup actions are appended to the execution log
once, in reverse registration order — removes `f` from the tracked set, and
leaves every other callable's entry untouched. -/
theorem cleanup_stack_tracked (f : Nat) (s : ManagerState) (st : Stack)
    (h : lookupStack f s._stacks = some st) :
    (cleanup_stack f s).execLog = s.execLog ++ st.actions.reverse ∧
    lookupStack f (cleanup_stack f s)._stacks = none ∧
    (∀ g, g ≠ f → lookupStack g (cleanup_stack f s)._stacks = lookupStack g s._stacks) := by
  refine ⟨?_, ?_, ?_⟩
  · simp [cleanup_stack, h, closeActions]
  · simp [cleanup_stack, h, lookupStack_removeStack_self]
  · intro g hg
    simp [cleanup_stack, h, lookupStack_removeStack_ne hg]

/-- Witness for `cleanup_stack_tracked` on a concrete tracked callable with
two registered cleanup actions, checking the untouched entry at key 2. -/
theorem cleanup_stack_tracked_witness :
    (cleanup_stack 1 ⟨[(1, ⟨0, [4, 5]⟩), (2, ⟨1, [9]⟩)], 2, []⟩).execLog =
      [] ++ [4, 5].reverse ∧
    lookupStack 1 (cleanup_stack 1 ⟨[(1, ⟨0, [4, 5]⟩), (2, ⟨1, [9]⟩)], 2, []⟩)._stacks = none ∧
    lookupStack 2 (cleanup_stack 1 ⟨[(1, ⟨0, [4, 5]⟩), (2, ⟨1, [9]⟩)], 2, []⟩)._stacks =
      lookupStack 2 (⟨[(1, ⟨0, [4, 5]⟩), (2, ⟨1, [9]⟩)], 2, []⟩ : ManagerState)._stacks :=
  ⟨(cleanup_stack_tracked 1 ⟨[(1, ⟨0, [4, 5]⟩), (2, ⟨1, [9]⟩)], 2, []⟩ ⟨0, [4, 5]⟩ (by decide)).1,
   (cleanup_stack_tracked 1 ⟨[(1, ⟨0, [4, 5]⟩), (2, ⟨1, [9]⟩)], 2, []⟩ ⟨0, [4, 5]⟩ (by decide)).2.1,
   (cleanup_stack_tracked 1 ⟨[(1, ⟨0, [4, 5]⟩), (2, ⟨1, [9]⟩)], 2, []⟩ ⟨0, [4, 5]⟩ (by decide)).2.2
     2 (by decide)⟩

/-- C6: `cleanup_all_stacks()` empties the tracked set regardless of its prior
size (on an already-empty set it changes nothing and raises no error), and
closes every tracked entry's stack: each entry's cleanup actions are appended
to the execution log in reverse registration order. -/
theorem cleanup_all_stacks_spec (s : ManagerState) :
    (cleanup_all_stacks s)._stacks = [] ∧
    (cleanup_all_stacks s).execLog =
      s.execLog ++ (s._stacks.map (fun p => p.2.actions.reverse)).flatten ∧
    (s._stacks = [] → cleanup_all_stacks s = s) := by
  obtain ⟨st, ni, el⟩ := s
  refine ⟨rfl, by simp [cleanup_all_stacks, closeActions], ?_⟩
  intro h
  have h' : st = [] := h
  subst h'
  simp [cleanup_all_stacks]

/-- Witness for `cleanup_all_stacks_spec` at a concrete empty-map state, where
the no-op implication is dischargeable. -/
theorem cleanup_all_stacks_spec_witness :
    (cleanup_all_stacks ⟨[], 0, [3]⟩)._stacks = [] ∧
    (cleanup_all_stacks ⟨[], 0, [3]⟩).execLog =
      (⟨[], 0, [3]⟩ : ManagerState).execLog ++
        ((⟨[], 0, [3]⟩ : ManagerState)._stacks.map (fun p => p.2.actions.reverse)).flatten ∧
    cleanup_all_stacks (⟨[], 0, [3]⟩ : ManagerState) = ⟨[], 0, [3]⟩ :=
  ⟨(cleanup_all_stacks_spec ⟨[], 0, [3]⟩).1,
   (cleanup_all_stacks_spec ⟨[], 0, [3]⟩).2.1,
   (cleanup_all_stacks_spec ⟨[], 0, [3]⟩).2.2 rfl⟩

theorem resolve_dependencies_eq (solver : Solver) (func : Nat)
    (use_cache raise_exception : Bool) (s : ResolveState) :
    resolve_dependencies solver func use_cache raise_exception s =
      (let out := solverOutput solver func use_cache s
       let s1 : ResolveState :=
         { manager := (get_stack func s.manager).2,
           dependency_cache :=
             if use_cache then dictUpdate s.dependency_cache out.dependency_cache
             else s.dependency_cache,
           warnings := s.warnings }
       if out.errors.isEmpty then (Except.ok out.values, s1)
       else if raise_exception then (Except.error out.errors, s1)
       else (Except.ok out.values, { s1 with warnings := s1.warnings + 1 })) := by
  cases use_cache <;> rfl

theorem lookupCache_setKey_self (k v : Nat) :
    ∀ m, lookupCache k (setKey m k v) = some v := by
  intro m
  induction m with
  | nil => simp [setKey, lookupCache]
  | cons p rest ih =>
      obtain ⟨k', v'⟩ := p
      by_cases hk : k' = k
      · simp [setKey, hk, lookupCache]
      · simp [setKey, hk, lookupCache, ih]

theorem lookupCache_setKey_ne {q k : Nat} (h : k ≠ q) (v : Nat) :
    ∀ m, lookupCache q (setKey m k v) = lookupCache q m := by
  intro m
  induction m with
  | nil => simp [setKey, lookupCache, h]
  | cons p rest ih =>
      obtain ⟨k', v'⟩ := p
      by_cases hk : k' = k
      · subst hk
        simp [setKey, lookupCache, h]
      · simp [setKey, hk, lookupCache, ih]

theorem isSome_lookupCache_setKey {q : Nat} (k v : Nat) (m : List (Nat × Nat))
    (h : (lookupCache q m).isSome = true) :
    (lookupCache q (setKey m k v)).isSome = true := by
  by_cases hk : k = q
  · subst hk
    simp [lookupCache_setKey_self]
  · rw [lookupCache_setKey_ne hk]
    exact h

theorem isSome_lookupCache_dictUpdate {q : Nat} (upd : List (Nat × Nat)) :
    ∀ m, (lookupCache q m).isSome = true →
      (lookupCache q (dictUpdate m upd)).isSome = true := by
  induction upd with
  | nil => intro m h; exact h
  | cons p rest ih =>
      intro m h
      exact ih (setKey m p.1 p.2) (isSome_lookupCache_setKey p.1 p.2 m h)

theorem lookupCache_dictUpdate_none {q : Nat} (upd : List (Nat × Nat))
    (h : lookupCache q upd = none) :
    ∀ m, lookupCache q (dictUpdate m upd) = lookupCache q m := by
  induction upd with
  | nil => intro m; rfl
  | cons p rest ih =>
      obtain ⟨k, v⟩ := p
      intro m
      by_cases hk : k = q
      · simp [lookupCache, hk] at h
      · simp [lookupCache, hk] at h
        have step : dictUpdate m ((k, v) :: rest) = dictUpdate (setKey m k v) rest := rfl
        rw [step, ih h (setKey m k v), lookupCache_setKey_ne hk]

theorem resolve_final_cache (solver : Solver) (func : Nat)
    (raise_exception : Bool) (s : ResolveState) :
    (resolve_dependencies solver func true raise_exception s).2.dependency_cache =
      dictUpdate s.dependency_cache (solverOutput solver func true s).dependency_cache := by
  rw [resolve_dependencies_eq]
  cases hE : (solverOutput solver func true s).errors.isEmpty <;>
    cases raise_exception <;> simp [hE]

/-- C3: with `raise_exception = true`, `resolve_dependencies` raises the
aggregate dependency-resolution error (`DependencyResolveError`, modelled by
`Except.error`) carrying exactly the solver's full per-dependency error list
if and only if that list is non-empty; with `raise_exception = false` the same
call never raises and returns the mapping of successfully computed values. -/
theorem resolve_raises_iff_solver_errors (solver : Solver) (func : Nat)
    (use_cache : Bool) (s : ResolveState) :
    ((resolve_dependencies solver func use_cache true s).1 =
        Except.error (solverOutput solver func use_cache s).errors ↔
      (solverOutput solver func use_cache s).errors ≠ []) ∧
    (resolve_dependencies solver func use_cache false s).1 =
      Except.ok (solverOutput solver func use_cache s).values := by
  rw [resolve_dependencies_eq, resolve_dependencies_eq]
  by_cases hE : (solverOutput solver func use_cache s).errors = []
  · simp [hE]
  · have hE' : (solverOutput solver func use_cache s).errors.isEmpty = false := by
      simpa [List.isEmpty_iff] using hE
    simp [hE', hE]

/-- Witness for `resolve_raises_iff_solver_errors` with a concrete failing
solver. -/
theorem resolve_raises_iff_solver_errors_witness :
    ((resolve_dependencies solverErr 0 true true ⟨⟨[], 0, []⟩, [], 0⟩).1 =
        Except.error (solverOutput solverErr 0 true ⟨⟨[], 0, []⟩, [], 0⟩).errors ↔
      (solverOutput solverErr 0 true ⟨⟨[], 0, []⟩, [], 0⟩).errors ≠ []) ∧
    (resolve_dependencies solverErr 0 true false ⟨⟨[], 0, []⟩, [], 0⟩).1 =
      Except.ok (solverOutput solverErr 0 true ⟨⟨[], 0, []⟩, [], 0⟩).values :=
  resolve_raises_iff_solver_errors solverErr 0 true ⟨⟨[], 0, []⟩, [], 0⟩

/-- C7 counterexample: the claim that after a successful cached resolution
every prior shared-cache entry is still present *unchanged* is false.  The
shared cache holds `0 ↦ 0`; the solver succeeds (no errors) and returns the
cache binding `0 ↦ 1`; `cache.update(...)` overwrites the existing entry, so
afterward key `0` maps to `1`, not `0`. -/
theorem resolve_cache_overwrite_counterexample :
    lookupCache 0 ([(0, 0)] : List (Nat × Nat)) = some 0 ∧
    (solverOutput solverOverwrite 0 true ⟨⟨[], 0, []⟩, [(0, 0)], 0⟩).errors = [] ∧
    lookupCache 0
      (resolve_dependencies solverOverwrite 0 true false
        ⟨⟨[], 0, []⟩, [(0, 0)], 0⟩).2.dependency_cache = some 1 :=
  ⟨rfl, rfl, rfl⟩

/-- C7 (amended): when a cached resolution succeeds, the merge into the shared
cache is additive on keys — every key present before the call is still present
afterward, nothing is evicted — and every entry whose key the solver's
returned cache does not mention keeps its exact prior value.  (An entry whose
key the solver's returned cache does mention is overwritten with the solver's
value, per `dict.update`; the counterexample shows the original "present and
unchanged" claim fails there.) -/
theorem resolve_cache_merge_additive (solver : Solver) (func : Nat)
    (raise_exception : Bool) (s : ResolveState) (k : Nat)
    (hsucc : (solverOutput solver func true s).errors = [])
    (hold : (lookupCache k s.dependency_cache).isSome = true) :
    (lookupCache k
      (resolve_dependencies solver func true raise_exception s).2.dependency_cache).isSome
        = true ∧
    (lookupCache k (solverOutput solver func true s).dependency_cache = none →
      lookupCache k
        (resolve_dependencies solver func true raise_exception s).2.dependency_cache =
      lookupCache k s.dependency_cache) := by
  rw [resolve_final_cache]
  exact ⟨isSome_lookupCache_dictUpdate _ _ hold,
    fun hnone => lookupCache_dictUpdate_none _ hnone _⟩

/-- Witness for `resolve_cache_merge_additive`: prior entry `2 ↦ 5` is
untouched by a successful resolution whose solver cache only mentions key
`0`. -/
theorem resolve_cache_merge_additive_witness :
    (lookupCache 2
      (resolve_dependencies solverOverwrite 9 true false
        ⟨⟨[], 0, []⟩, [(0, 0), (2, 5)], 0⟩).2.dependency_cache).isSome = true ∧
    (lookupCache 2
        (solverOutput solverOverwrite 9 true ⟨⟨[], 0, []⟩, [(0, 0), (2, 5)], 0⟩).dependency_cache
          = none →
      lookupCache 2
        (resolve_dependencies solverOverwrite 9 true false
          ⟨⟨[], 0, []⟩, [(0, 0), (2, 5)], 0⟩).2.dependency_cache =
      lookupCache 2 ([(0, 0), (2, 5)] : List (Nat × Nat))) :=
  resolve_cache_merge_additive solverOverwrite 9 false
    ⟨⟨[], 0, []⟩, [(0, 0), (2, 5)], 0⟩ 2 rfl rfl

/-- C8: with `use_cache = false` the shared resolution cache is neither
written — its contents after the call are exactly its contents before — nor
read: the solver is invoked with no cache (`none`), and the call's outcome and
manager effects are identical whatever the shared cache held beforehand. -/
theorem resolve_no_cache_frame (solver : Solver) (func : Nat)
    (raise_exception : Bool) (s : ResolveState) (c : List (Nat × Nat)) :
    (resolve_dependencies solver func false raise_exception s).2.dependency_cache =
      s.dependency_cache ∧
    solverOutput solver func false s = solver func none (get_stack func s.manager).1 ∧
    (resolve_dependencies solver func false raise_exception s).1 =
      (resolve_dependencies solver func false raise_exception
        { s with dependency_cache := c }).1 ∧
    (resolve_dependencies solver func false raise_exception s).2.manager =
      (resolve_dependencies solver func false raise_exception
        { s with dependency_cache := c }).2.manager := by
  have hout : solverOutput solver func false { s with dependency_cache := c } =
      solverOutput solver func false s := rfl
  rw [resolve_dependencies_eq, resolve_dependencies_eq, hout]
  cases hE : (solverOutput solver func false s).errors.isEmpty <;>
    cases raise_exception <;> simp [hE] <;> rfl

/-- C10: with caching enabled, the merge of the solver's cache into the shared
cache happens before the error branch, so even when the solver reports errors
and `raise_exception = true` makes the call raise `DependencyResolveError`,
the shared cache has already been mutated: the call returns the error carrying
the solver's error list while the final cache is `dict.update` of the prior
cache with the solver's returned cache — state is not left unchanged on
error. -/
theorem resolve_error_path_mutates_cache (solver : Solver) (func : Nat)
    (s : ResolveState)
    (herr : (solverOutput solver func true s).errors ≠ []) :
    resolve_dependencies solver func true true s =
      (Except.error (solverOutput solver func true s).errors,
       { manager := (get_stack func s.manager).2,
         dependency_cache :=
           dictUpdate s.dependency_cache (solverOutput solver func true s).dependency_cache,
         warnings := s.warnings }) := by
  rw [resolve_dependencies_eq]
  have hE : (solverOutput solver func true s).errors.isEmpty = false := by
    simpa [List.isEmpty_iff] using herr
  simp [hE]

/-- Witness for `resolve_error_path_mutates_cache`: the solver fails with
error 5 yet its cache binding `1 ↦ 2` lands in the shared cache next to the
preexisting `0 ↦ 0`. -/
theorem resolve_error_path_mutates_cache_witness :
    resolve_dependencies solverErrCache 0 true true ⟨⟨[], 0, []⟩, [(0, 0)], 0⟩ =
      (Except.error [5], ⟨⟨[(0, ⟨0, []⟩)], 1, []⟩, [(0, 0), (1, 2)], 0⟩) :=
  resolve_error_path_mutates_cache solverErrCache 0 ⟨⟨[], 0, []⟩, [(0, 0)], 0⟩ (by decide)
